import Mathlib

/-!
Verification of the planx HTTP sink plugin (`internal/plugin/sink.go`).

Shallow embedding conventions:
* byte sequences (`[]byte`) are `List Nat`;
* external collaborators are modelled at their interface:
  - `json.Unmarshal(req.ConfigJson, &cfg)` is the `configParse : Option Config`
    field of the request (the parse outcome);
  - `time.ParseDuration` is an oracle parameter `pd : String → Option Int`
    (nanoseconds; it may be negative);
  - `batch.UnpackBatch(req.PackedBatch)` is the `unpack : Except String Batch`
    field of a stream message;
  - the HTTP exchange performed by `client.Do` is the `HttpResult` oracle
    carried by each message (transport error, or a completed response with a
    status and a best-effort body read);
  - `json.Marshal` on a `[]json.RawMessage` is `marshalRawArray` (payloads are
    taken to be already-compact raw JSON; the encoder's whitespace compaction
    and HTML escaping of valid payloads are abstracted away, its rejection of
    an invalid raw message is kept);
  - `net/http.Header.Set` canonicalizes its key exactly as Go's
    `textproto.CanonicalMIMEHeaderKey` does; this is implemented below.
* the session registry (`session.Manager` of planx-sdk-go) is not part of this
  repository's sources; it is modelled from the spec (see `managerCreate`,
  `managerGet`, `managerClose`).
-/

namespace PlanxHttp

/-- A record of a batch: opaque payload bytes (`batch.Record.Payload`). -/
structure Record where
  payload : List Nat
  deriving Repr, DecidableEq

/-- An ordered batch of records (`batch.Batch`). -/
structure Batch where
  records : List Record
  deriving Repr, DecidableEq

/-- The HTTP sink configuration (`Config` in sink.go). The Go
`map[string]string` of headers is modelled as an association list whose order
stands for the (unspecified) map iteration order. -/
structure Config where
  endpoint : String
  method : String
  headers : List (String × String)
  timeout : String
  batchFormat : String
  deriving Repr, DecidableEq

/-! ## Header canonicalization (Go net/textproto) -/

/-- Valid MIME header token byte, as Go's `textproto.validHeaderFieldByte`:
digits, letters, and the bytes `! # $ % & ' * + - . ^ _ \x60 | ~`. -/
def isTokenChar (c : Char) : Bool :=
  let n := c.toNat
  (48 ≤ n && n ≤ 57) || (65 ≤ n && n ≤ 90) || (97 ≤ n && n ≤ 122) ||
  n == 33 || n == 35 || n == 36 || n == 37 || n == 38 || n == 39 ||
  n == 42 || n == 43 || n == 45 || n == 46 || n == 94 || n == 95 ||
  n == 96 || n == 124 || n == 126

/-- The case-folding pass of `textproto.CanonicalMIMEHeaderKey`: uppercase the
first letter and every letter following a hyphen, lowercase the rest. -/
def canonChars : Bool → List Char → List Char
  | _, [] => []
  | upper, c :: cs =>
    let c2 := if upper then c.toUpper else c.toLower
    c2 :: canonChars (c2 = '-') cs

/-- Go's `textproto.CanonicalMIMEHeaderKey`: a key containing an invalid
header-field byte is returned unchanged, otherwise it is case-canonicalized. -/
def canonicalKey (s : String) : String :=
  if s.data.all isTokenChar then String.mk (canonChars true s.data) else s

/-- `http.Header.Set k v`: stores `v` under the canonicalized key, replacing
any previous value for that key. -/
def headerSet (h : List (String × String)) (k v : String) :
    List (String × String) :=
  let ck := canonicalKey k
  if (h.lookup ck).isSome then
    h.map (fun p => if p.1 = ck then (ck, v) else p)
  else
    h ++ [(ck, v)]

/-! ## Batch serialization (sendBatch, lines 148–171) -/

/-- Models `encoding/json`'s validation of one `json.RawMessage`: an empty raw
message is rejected ("unexpected end of JSON input"); payloads are otherwise
taken to be valid, already-compact JSON values, as the spec requires of
records. -/
def jsonRawValid (p : List Nat) : Bool := !p.isEmpty

/-- A JSON array literal over raw element bytes: `[` (91), elements joined by
`,` (44), `]` (93). -/
def renderJsonArray (elems : List (List Nat)) : List Nat :=
  [91] ++ List.intercalate [44] elems ++ [93]

/-- Models `json.Marshal` on a `[]json.RawMessage`: each raw element is
embedded verbatim into a JSON array literal; an invalid element makes the
whole marshal fail. -/
def marshalRawArray (payloads : List (List Nat)) : Except String (List Nat) :=
  if payloads.all jsonRawValid then .ok (renderJsonArray payloads)
  else .error "json: error calling MarshalJSON for type json.RawMessage: unexpected end of JSON input"

/-- The body-formatting switch of `sendBatch` (sink.go lines 152–171):
`"ndjson"` writes each payload followed by one newline byte (10) into a
buffer; every other value of `batch_format` marshals the payload sequence as
a JSON array, wrapping a marshal error as `failed to marshal batch: ...`. -/
def formatBatch (cfg : Config) (b : Batch) : Except String (List Nat) :=
  if cfg.batchFormat = "ndjson" then
    .ok (b.records.foldl (fun buf r => buf ++ r.payload ++ [10]) [])
  else
    match marshalRawArray (b.records.map (fun r => r.payload)) with
    | .ok body => .ok body
    | .error e => .error ("failed to marshal batch: " ++ e)

/-- The outbound HTTP request built by `sendBatch` (method, URL, headers,
body). -/
structure OutRequest where
  method : String
  url : String
  headers : List (String × String)
  body : List Nat
  deriving Repr, DecidableEq

/-- Outcome of the HTTP exchange for one request, supplied as an oracle:
either `client.Do` fails at the transport level, or a response completes with
a status code and a best-effort body read (`none` models a failed
`io.ReadAll`, which the code ignores, leaving an empty body). -/
inductive HttpResult where
  | transportError (msg : String)
  | response (status : Nat) (bodyRead : Option (List Nat))
  deriving Repr, DecidableEq

/-- Go's `string(bytes)` conversion used when reporting a response body. -/
def bytesToString (bs : List Nat) : String := String.mk (bs.map Char.ofNat)

/-- Method resolution of `sendBatch` (lines 143–146): default POST if unset. -/
def resolveMethod (m : String) : String := if m = "" then "POST" else m

/-- Header construction of `sendBatch` (lines 178–182):
`Content-Type: application/json` is set first, then every configured header
is applied with `Header.Set`. -/
def applyHeaders (cfg : Config) : List (String × String) :=
  cfg.headers.foldl (fun h kv => headerSet h kv.1 kv.2)
    (headerSet [] "Content-Type" "application/json")

/-- Result classification of `sendBatch` (lines 190–195): status ≥ 400 is an
error `HTTP <status>: <body>` (body read is best-effort), otherwise nil. -/
def classifyResponse (status : Nat) (bodyRead : Option (List Nat)) :
    Except String Unit :=
  if 400 ≤ status then
    .error ("HTTP " ++ toString status ++ ": " ++ bytesToString (bodyRead.getD []))
  else .ok ()

/-- `sendBatch` (sink.go lines 142–196): formats the batch, builds the
request, performs the exchange and classifies the result. Returns the request
actually sent (`none` when formatting failed before any request was built)
together with the delivery outcome. `http.NewRequestWithContext` is modelled
as succeeding. -/
def sendBatch (cfg : Config) (b : Batch) (net : HttpResult) :
    Option OutRequest × Except String Unit :=
  match formatBatch cfg b with
  | .error e => (none, .error e)
  | .ok body =>
    let req : OutRequest :=
      { method := resolveMethod cfg.method
        url := cfg.endpoint
        headers := applyHeaders cfg
        body := body }
    match net with
    | .transportError m => (some req, .error ("HTTP request failed: " ++ m))
    | .response status bodyRead => (some req, classifyResponse status bodyRead)

/-! ## Session registry (planx-sdk-go session.Manager, modelled from the spec) -/

/-- Per-session resolved state: tenant, validated config, and the timeout (in
nanoseconds) bound to the session's HTTP client. The spec's design note makes
the generic `SetData`/`GetData` slots a typed record. -/
structure SessionData where
  tenantId : String
  cfg : Config
  timeoutNs : Int
  deriving Repr, DecidableEq

/-- The registry's identifier → state mapping, with a counter supplying fresh
identifiers. -/
structure ManagerState where
  nextId : Nat
  sessions : List (String × SessionData)
  deriving Repr, DecidableEq

/-- Modelled from the spec: `session.Manager.Create` (planx-sdk-go, not in
src/) generates a fresh unique session identifier and stores the session's
state keyed by it, returning the identifier. -/
def managerCreate (st : ManagerState) (data : SessionData) :
    ManagerState × String :=
  let id := "sess-" ++ toString st.nextId
  ({ nextId := st.nextId + 1, sessions := (id, data) :: st.sessions }, id)

/-- Modelled from the spec: `session.Manager.Get` (planx-sdk-go, not in src/)
fails with a not-found error if no session with that identifier exists. -/
def managerGet (st : ManagerState) (id : String) : Except String SessionData :=
  match st.sessions.lookup id with
  | some d => .ok d
  | none => .error ("session not found: " ++ id)

/-- Modelled from the spec: `session.Manager.Close` (planx-sdk-go, not in
src/) removes the session's state; closing an unknown identifier is an
error. -/
def managerClose (st : ManagerState) (id : String) :
    Except String ManagerState :=
  match st.sessions.lookup id with
  | some _ => .ok { st with sessions := st.sessions.filter (fun p => p.1 != id) }
  | none => .error ("session not found: " ++ id)

/-! ## RPC handlers (sink.go) -/

/-- A `SessionCreateRequest`: the tenant id and the outcome of
`json.Unmarshal(req.ConfigJson, &cfg)` (the raw bytes themselves are only
ever inspected through this parse). -/
structure SessionCreateRequest where
  tenantId : String
  configParse : Option Config
  deriving Repr

/-- A `SessionCreateResponse` carrying the created session's identifier. -/
structure SessionCreateResponse where
  sessionId : String
  deriving Repr, DecidableEq

/-- Timeout resolution of `CreateSession` (lines 56–61): start from the 30s
default (30000000000 ns); only a non-empty timeout string that parses
overrides it. `pd` is the `time.ParseDuration` oracle. -/
def resolveTimeout (pd : String → Option Int) (t : String) : Int :=
  if t = "" then 30000000000
  else
    match pd t with
    | some d => d
    | none => 30000000000

/-- `CreateSession` (sink.go lines 42–76): rejects an unparseable config or an
empty endpoint without touching the registry; otherwise creates the session,
binds the resolved timeout to its client, and returns the new identifier.
Returns the (possibly updated) registry state with the RPC outcome. -/
def CreateSession (pd : String → Option Int) (st : ManagerState)
    (req : SessionCreateRequest) :
    ManagerState × Except String SessionCreateResponse :=
  match req.configParse with
  | none => (st, .error "invalid config: unmarshal error")
  | some cfg =>
    if cfg.endpoint = "" then (st, .error "endpoint is required")
    else
      let timeoutNs := resolveTimeout pd cfg.timeout
      let created := managerCreate st
        { tenantId := req.tenantId, cfg := cfg, timeoutNs := timeoutNs }
      (created.1, .ok { sessionId := created.2 })

/-- `CloseSession` (sink.go lines 199–206): the registry's close error is only
logged; the RPC always answers `(&Empty{}, nil)`, modelled as `.ok ()`. -/
def CloseSession (st : ManagerState) (id : String) :
    ManagerState × Except String Unit :=
  match managerClose st id with
  | .ok st2 => (st2, .ok ())
  | .error _ => (st, .ok ())

/-! ## Write stream handler (sink.go lines 79–140) -/

/-- One received `WriteRequest`, with its externally determined outcomes: the
result of `batch.UnpackBatch(req.PackedBatch)` and, should a request be sent,
the result of the HTTP exchange. The message list given to `Write` models the
successfully received stream prefix (EOF after the last element); `Send` is
modelled as succeeding. -/
structure WriteMsg where
  sessionId : String
  unpack : Except String Batch
  net : HttpResult

/-- An `AckResponse` sent back on the stream. -/
structure AckResponse where
  success : Bool
  error : String
  deriving Repr, DecidableEq

/-- The per-message loop of `Write` once the session is bound: a decode
failure or a delivery failure each produce one negative acknowledgment and
the loop continues; a delivered batch produces a positive acknowledgment. -/
def writeLoop (cfg : Config) : List WriteMsg → List AckResponse × Except String Unit
  | [] => ([], .ok ())
  | m :: rest =>
    match m.unpack with
    | .error e =>
      let tail := writeLoop cfg rest
      ({ success := false, error := "failed to unpack batch: " ++ e } :: tail.1,
       tail.2)
    | .ok b =>
      match (sendBatch cfg b m.net).2 with
      | .error e =>
        let tail := writeLoop cfg rest
        ({ success := false, error := e } :: tail.1, tail.2)
      | .ok _ =>
        let tail := writeLoop cfg rest
        ({ success := true, error := "" } :: tail.1, tail.2)

/-- `Write` (sink.go lines 79–140): the session is resolved once, from the
first message; a resolution failure terminates the stream with that error
before any acknowledgment. Returns the acknowledgments sent, in order, and
the stream's final result. -/
def Write (st : ManagerState) (msgs : List WriteMsg) :
    List AckResponse × Except String Unit :=
  match msgs with
  | [] => ([], .ok ())
  | m :: _ =>
    match managerGet st m.sessionId with
    | .error e => ([], .error e)
    | .ok sd => writeLoop sd.cfg msgs

/-! ## Concrete fixtures used by witness theorems -/

/-- An ndjson config, the spec's §8 scenario. -/
def cfgNd : Config :=
  { endpoint := "http://x/ingest", method := "PUT",
    headers := [("X-Tenant", "t1")], timeout := "", batchFormat := "ndjson" }

/-- A default-format (json_array) config. -/
def cfgJa : Config :=
  { endpoint := "http://x", method := "", headers := [], timeout := "",
    batchFormat := "" }

/-- A config whose method is not one of POST/PUT/PATCH. -/
def cfgDelete : Config :=
  { endpoint := "http://x", method := "DELETE", headers := [], timeout := "",
    batchFormat := "ndjson" }

/-- A two-record batch, payloads `{"a":1}` and `{"b":2}` as bytes. -/
def batchTwo : Batch :=
  ⟨[⟨[123, 34, 97, 34, 58, 49, 125]⟩, ⟨[123, 34, 98, 34, 58, 50, 125]⟩]⟩

/-- A batch holding one empty (invalid) raw payload. -/
def batchBad : Batch := ⟨[⟨[]⟩]⟩

/-- The empty batch. -/
def batchNone : Batch := ⟨[]⟩

/-- A `time.ParseDuration` oracle recognizing only the string `"5s"`. -/
def pdFix : String → Option Int :=
  fun s => if s = "5s" then some 5000000000 else none

/-- The empty registry. -/
def st0 : ManagerState := { nextId := 0, sessions := [] }

/-- A registry holding one session `sess-0` configured as `cfgNd`. -/
def st1 : ManagerState :=
  { nextId := 1,
    sessions := [("sess-0",
      { tenantId := "t", cfg := cfgNd, timeoutNs := 30000000000 })] }

/-- A config with a timeout string `time.ParseDuration` rejects. -/
def cfgBogusTimeout : Config := { cfgNd with timeout := "bogus" }

/-- A config with the parseable timeout string `"5s"`. -/
def cfgFiveSec : Config := { cfgNd with timeout := "5s" }

/-- The request `sendBatch` sends for `cfgNd` and `batchTwo`. -/
def reqNd : OutRequest :=
  { method := "PUT", url := "http://x/ingest", headers := applyHeaders cfgNd,
    body := (batchTwo.records.map (fun r => r.payload ++ [10])).flatten }

/-- The request `sendBatch` sends for `cfgJa` and `batchTwo`. -/
def reqJa : OutRequest :=
  { method := "POST", url := "http://x", headers := applyHeaders cfgJa,
    body := renderJsonArray (batchTwo.records.map (fun r => r.payload)) }

/-- A stream message naming a session that was never created. -/
def msgGhost : WriteMsg :=
  { sessionId := "ghost", unpack := .ok batchTwo, net := .response 200 none }

/-- A stream message for `sess-0` whose packed batch fails to decode. -/
def msgBadWire : WriteMsg :=
  { sessionId := "sess-0", unpack := .error "bad wire bytes",
    net := .response 200 none }

/-- A well-formed stream message for `sess-0` answered with 200. -/
def msgOk : WriteMsg :=
  { sessionId := "sess-0", unpack := .ok batchTwo, net := .response 200 none }

/-! ## Helper lemmas -/

/-- Writing `payload ++ [10]` per record into a buffer equals the flat
concatenation of the per-record chunks. -/
theorem foldl_write_eq_join (l : List Record) (init : List Nat) :
    l.foldl (fun buf r => buf ++ r.payload ++ [10]) init
      = init ++ (l.map (fun r => r.payload ++ [10])).flatten := by
  induction l generalizing init with
  | nil => simp
  | cons r t ih =>
    simp only [List.foldl_cons, List.map_cons, List.flatten_cons]
    rw [ih]
    simp [List.append_assoc]

/-- Replacing the entries keyed `ck` of a list that holds one makes `ck` map
to the new value. -/
theorem lookup_map_replace (t : List (String × String)) (ck v : String)
    (hs : (t.lookup ck).isSome) :
    (t.map (fun p => if p.1 = ck then (ck, v) else p)).lookup ck = some v := by
  induction t with
  | nil => simp at hs
  | cons p t ih =>
    obtain ⟨a, b⟩ := p
    by_cases ha : a = ck
    · subst ha
      simp only [List.map_cons, eq_self_iff_true, if_true]
      simp [List.lookup]
    · have hba : (ck == a) = false := by
        simp only [beq_eq_false_iff_ne, ne_eq]
        exact fun hh => ha hh.symm
      simp only [List.map_cons, if_neg ha] at ih ⊢
      simp only [List.lookup, hba] at hs ⊢
      exact ih hs

/-- Replacing the entries keyed `ck` does not disturb any other key. -/
theorem lookup_map_replace_ne (t : List (String × String)) (ck v ck2 : String)
    (hne : ck ≠ ck2) :
    (t.map (fun p => if p.1 = ck then (ck, v) else p)).lookup ck2
      = t.lookup ck2 := by
  induction t with
  | nil => simp
  | cons p t ih =>
    obtain ⟨a, b⟩ := p
    have h2 : (ck2 == ck) = false := by
      simp only [beq_eq_false_iff_ne, ne_eq]
      exact fun hh => hne hh.symm
    by_cases ha : a = ck
    · subst ha
      simp only [List.map_cons, eq_self_iff_true, if_true]
      simp [List.lookup, h2, ih]
    · simp only [List.map_cons, if_neg ha]
      simp only [List.lookup]
      cases hc : (ck2 == a) with
      | true => rfl
      | false => exact ih

/-- Appending a fresh binding for `ck` to a list without one makes `ck` map to
the new value. -/
theorem lookup_append_single (t : List (String × String)) (ck v : String)
    (hs : t.lookup ck = none) :
    (t ++ [(ck, v)]).lookup ck = some v := by
  induction t with
  | nil => simp [List.lookup]
  | cons p t ih =>
    obtain ⟨a, b⟩ := p
    simp only [List.lookup, List.cons_append] at hs ⊢
    cases hc : (ck == a) with
    | true => rw [hc] at hs; simp at hs
    | false => rw [hc] at hs; exact ih hs

/-- Appending a binding for `ck` does not disturb any other key. -/
theorem lookup_append_single_ne (t : List (String × String)) (ck v ck2 : String)
    (hne : ck ≠ ck2) :
    (t ++ [(ck, v)]).lookup ck2 = t.lookup ck2 := by
  induction t with
  | nil =>
    have h2 : (ck2 == ck) = false := by
      simp only [beq_eq_false_iff_ne, ne_eq]
      exact fun hh => hne hh.symm
    simp [List.lookup, h2]
  | cons p t ih =>
    obtain ⟨a, b⟩ := p
    simp only [List.lookup, List.cons_append]
    cases hc : (ck2 == a) with
    | true => rfl
    | false => exact ih

/-- After `headerSet h k v`, looking up the canonicalized key yields `v`. -/
theorem lookup_headerSet_self (h : List (String × String)) (k v : String) :
    (headerSet h k v).lookup (canonicalKey k) = some v := by
  unfold headerSet
  by_cases hs : (h.lookup (canonicalKey k)).isSome
  · rw [if_pos hs]
    exact lookup_map_replace h (canonicalKey k) v hs
  · rw [if_neg hs]
    exact lookup_append_single h (canonicalKey k) v
      (Option.not_isSome_iff_eq_none.mp hs)

/-- `headerSet` with key `k` does not disturb the value stored under any other
canonical key. -/
theorem lookup_headerSet_ne (h : List (String × String)) (k v ck2 : String)
    (hne : canonicalKey k ≠ ck2) :
    (headerSet h k v).lookup ck2 = h.lookup ck2 := by
  unfold headerSet
  by_cases hs : (h.lookup (canonicalKey k)).isSome
  · rw [if_pos hs]
    exact lookup_map_replace_ne h (canonicalKey k) v ck2 hne
  · rw [if_neg hs]
    exact lookup_append_single_ne h (canonicalKey k) v ck2 hne

/-- Applying a run of configured headers none of which canonicalizes to `ck`
leaves the value stored under `ck` unchanged. -/
theorem lookup_foldl_headerSet (l : List (String × String))
    (h0 : List (String × String)) (ck : String)
    (hall : ∀ kv ∈ l, canonicalKey kv.1 ≠ ck) :
    (l.foldl (fun h kv => headerSet h kv.1 kv.2) h0).lookup ck
      = h0.lookup ck := by
  induction l generalizing h0 with
  | nil => rfl
  | cons p t ih =>
    simp only [List.foldl_cons]
    rw [ih _ (fun kv hkv => hall kv (List.mem_cons_of_mem p hkv))]
    exact lookup_headerSet_ne h0 p.1 p.2 ck (hall p (List.mem_cons_self p t))

/-- Whenever `sendBatch` reports a request as sent, that request carries the
resolved method, the configured endpoint, and the constructed headers. -/
theorem sendBatch_request_shape (cfg : Config) (b : Batch) (net : HttpResult)
    (req : OutRequest) (h : (sendBatch cfg b net).1 = some req) :
    req.method = resolveMethod cfg.method ∧ req.url = cfg.endpoint ∧
    req.headers = applyHeaders cfg := by
  unfold sendBatch at h
  cases hf : formatBatch cfg b with
  | error e =>
    rw [hf] at h
    simp at h
  | ok body =>
    rw [hf] at h
    cases net with
    | transportError m =>
      simp only [Option.some.injEq] at h
      rw [← h]
      exact ⟨rfl, rfl, rfl⟩
    | response s br =>
      simp only [Option.some.injEq] at h
      rw [← h]
      exact ⟨rfl, rfl, rfl⟩

/-! ## Claims -/

/-- C1: with `batch_format = "ndjson"`, the outbound request body is exactly
the concatenation of `payload_i ++ "\n"` (one newline byte per record, no
other separators), in input order. -/
theorem ndjson_body_is_concat (cfg : Config) (b : Batch) (net : HttpResult)
    (h : cfg.batchFormat = "ndjson") :
    ∃ req, (sendBatch cfg b net).1 = some req ∧
      req.body = (b.records.map (fun r => r.payload ++ [10])).flatten := by
  have hf : formatBatch cfg b
      = .ok ((b.records.map (fun r => r.payload ++ [10])).flatten) := by
    unfold formatBatch
    rw [if_pos h, foldl_write_eq_join]
    simp
  unfold sendBatch
  rw [hf]
  cases net with
  | transportError m => exact ⟨_, rfl, rfl⟩
  | response s br => exact ⟨_, rfl, rfl⟩

/-- C1 witness: the two-record ndjson delivery evaluated concretely. -/
theorem ndjson_body_is_concat_witness :
    cfgNd.batchFormat = "ndjson" ∧
    ∃ req, (sendBatch cfgNd batchTwo (.response 200 none)).1 = some req ∧
      req.body = (batchTwo.records.map (fun r => r.payload ++ [10])).flatten :=
  ⟨rfl, ndjson_body_is_concat cfgNd batchTwo (.response 200 none) rfl⟩

/-- C2: with `batch_format = "json_array"` or any other non-`"ndjson"` value
(the empty string included), the body is one JSON array whose i-th raw
element is record i's payload, in input order; a marshal failure becomes a
delivery Failure `failed to marshal batch: ...`, not a crash. -/
theorem json_array_body (cfg : Config) (b : Batch) (net : HttpResult)
    (h : cfg.batchFormat ≠ "ndjson") :
    ((b.records.map (fun r => r.payload)).all jsonRawValid = true →
      ∃ req, (sendBatch cfg b net).1 = some req ∧
        ∃ elems, req.body = renderJsonArray elems ∧
          elems.length = b.records.length ∧
          ∀ i : Nat, elems[i]? = (b.records[i]?).map (fun r => r.payload)) ∧
    ((b.records.map (fun r => r.payload)).all jsonRawValid = false →
      ∃ e, sendBatch cfg b net
        = (none, .error ("failed to marshal batch: " ++ e))) := by
  constructor
  · intro hv
    have hf : formatBatch cfg b
        = .ok (renderJsonArray (b.records.map (fun r => r.payload))) := by
      unfold formatBatch marshalRawArray
      rw [if_neg h, if_pos hv]
    unfold sendBatch
    rw [hf]
    cases net with
    | transportError m =>
      exact ⟨_, rfl, b.records.map (fun r => r.payload), rfl, by simp,
        fun i => by simp⟩
    | response s br =>
      exact ⟨_, rfl, b.records.map (fun r => r.payload), rfl, by simp,
        fun i => by simp⟩
  · intro hv
    refine ⟨"json: error calling MarshalJSON for type json.RawMessage: unexpected end of JSON input", ?_⟩
    have hf : formatBatch cfg b = .error ("failed to marshal batch: " ++
        "json: error calling MarshalJSON for type json.RawMessage: unexpected end of JSON input") := by
      unfold formatBatch marshalRawArray
      rw [if_neg h, if_neg (by simp [hv])]
    unfold sendBatch
    rw [hf]

/-- C2 witness: a valid two-record batch and an invalid one evaluated under
the default format. -/
theorem json_array_body_witness :
    (∃ req, (sendBatch cfgJa batchTwo (.response 200 none)).1 = some req ∧
      ∃ elems, req.body = renderJsonArray elems ∧
        elems.length = batchTwo.records.length ∧
        ∀ i : Nat, elems[i]? = (batchTwo.records[i]?).map (fun r => r.payload)) ∧
    (∃ e, sendBatch cfgJa batchBad (.response 200 none)
      = (none, .error ("failed to marshal batch: " ++ e))) :=
  ⟨(json_array_body cfgJa batchTwo (.response 200 none) (by decide)).1 rfl,
   (json_array_body cfgJa batchBad (.response 200 none) (by decide)).2 rfl⟩

/-- C3: `CreateSession` on an unparseable config or an empty/absent endpoint
fails and leaves the registry unchanged; on a parsed config with a non-empty
endpoint it creates a session and returns its identifier. -/
theorem create_session_validation (pd : String → Option Int)
    (st : ManagerState) (req : SessionCreateRequest) :
    (req.configParse = none →
      CreateSession pd st req = (st, .error "invalid config: unmarshal error")) ∧
    (∀ cfg, req.configParse = some cfg → cfg.endpoint = "" →
      CreateSession pd st req = (st, .error "endpoint is required")) ∧
    (∀ cfg, req.configParse = some cfg → cfg.endpoint ≠ "" →
      CreateSession pd st req =
        ({ nextId := st.nextId + 1,
           sessions := ("sess-" ++ toString st.nextId,
             { tenantId := req.tenantId, cfg := cfg,
               timeoutNs := resolveTimeout pd cfg.timeout }) :: st.sessions },
         .ok { sessionId := "sess-" ++ toString st.nextId })) := by
  refine ⟨fun hp => ?_, fun cfg hp he => ?_, fun cfg hp he => ?_⟩
  · unfold CreateSession
    rw [hp]
  · unfold CreateSession
    rw [hp]
    simp [he]
  · unfold CreateSession
    rw [hp]
    simp only [if_neg he]
    rfl

/-- C3 witness: an unparseable config, a parsed config with empty endpoint,
and a valid config, each evaluated on the empty registry. -/
theorem create_session_validation_witness :
    CreateSession pdFix st0 { tenantId := "t", configParse := none }
      = (st0, .error "invalid config: unmarshal error") ∧
    CreateSession pdFix st0
        { tenantId := "t", configParse := some { cfgNd with endpoint := "" } }
      = (st0, .error "endpoint is required") ∧
    CreateSession pdFix st0 { tenantId := "t", configParse := some cfgNd }
      = ({ nextId := st0.nextId + 1,
           sessions := ("sess-" ++ toString st0.nextId,
             { tenantId := "t", cfg := cfgNd,
               timeoutNs := resolveTimeout pdFix cfgNd.timeout }) :: st0.sessions },
         .ok { sessionId := "sess-" ++ toString st0.nextId }) :=
  ⟨(create_session_validation pdFix st0 _).1 rfl,
   (create_session_validation pdFix st0 _).2.1 _ rfl rfl,
   (create_session_validation pdFix st0 _).2.2 _ rfl (by decide)⟩

/-- C4 counterexample: the claim says an unknown identifier makes
`CloseSession` return an error to the caller, but the handler only logs the
registry's error and answers the caller with success: on the empty registry,
closing `"missing"` yields `.ok ()`. -/
theorem close_session_counterexample :
    CloseSession st0 "missing" = (st0, Except.ok ()) := rfl

/-- C4 amended: `CloseSession` on an unknown or already-closed identifier
answers the caller with success (the registry's not-found error is only
logged), does not crash, and leaves the registry — hence every other
session — unchanged. -/
theorem close_session_unknown (st : ManagerState) (id : String)
    (h : st.sessions.lookup id = none) :
    CloseSession st id = (st, .ok ()) := by
  unfold CloseSession managerClose
  rw [h]

/-- C4 witness: closing an unknown identifier on a registry holding one
session leaves it intact and reports success. -/
theorem close_session_unknown_witness :
    CloseSession st1 "sess-9" = (st1, .ok ()) :=
  close_session_unknown st1 "sess-9" rfl

/-- C5: on a `Write` stream, a session-resolution failure on the first
message terminates the stream with that error and no acknowledgment, while a
batch that fails to decode produces exactly one negative acknowledgment and
processing continues with the remaining messages. -/
theorem write_stream_policy (st : ManagerState) (m : WriteMsg)
    (rest : List WriteMsg) :
    (∀ e, managerGet st m.sessionId = .error e →
      Write st (m :: rest) = ([], .error e)) ∧
    (∀ sd e, managerGet st m.sessionId = .ok sd → m.unpack = .error e →
      Write st (m :: rest) =
        ({ success := false, error := "failed to unpack batch: " ++ e }
            :: (writeLoop sd.cfg rest).1,
         (writeLoop sd.cfg rest).2)) := by
  constructor
  · intro e hg
    have hW : Write st (m :: rest)
        = match managerGet st m.sessionId with
          | .error e => ([], .error e)
          | .ok sd => writeLoop sd.cfg (m :: rest) := rfl
    rw [hW, hg]
  · intro sd e hg hu
    have hW : Write st (m :: rest)
        = match managerGet st m.sessionId with
          | .error e => ([], .error e)
          | .ok sd => writeLoop sd.cfg (m :: rest) := rfl
    rw [hW, hg]
    show writeLoop sd.cfg (m :: rest) = _
    have hL : writeLoop sd.cfg (m :: rest)
        = match m.unpack with
          | .error e =>
            ({ success := false, error := "failed to unpack batch: " ++ e }
                :: (writeLoop sd.cfg rest).1,
             (writeLoop sd.cfg rest).2)
          | .ok b =>
            match (sendBatch sd.cfg b m.net).2 with
            | .error e =>
              ({ success := false, error := e } :: (writeLoop sd.cfg rest).1,
               (writeLoop sd.cfg rest).2)
            | .ok _ =>
              ({ success := true, error := "" } :: (writeLoop sd.cfg rest).1,
               (writeLoop sd.cfg rest).2) := rfl
    rw [hL, hu]

/-- C5 witness: an unknown session on the first message, and a bound session
whose first message fails to unpack, both evaluated concretely. -/
theorem write_stream_policy_witness :
    Write st0 [msgGhost] = ([], .error "session not found: ghost") ∧
    Write st1 [msgBadWire, msgOk]
      = ({ success := false, error := "failed to unpack batch: bad wire bytes" }
            :: (writeLoop cfgNd [msgOk]).1,
         (writeLoop cfgNd [msgOk]).2) :=
  ⟨(write_stream_policy st0 msgGhost []).1 _ rfl,
   (write_stream_policy st1 msgBadWire [msgOk]).2
     { tenantId := "t", cfg := cfgNd, timeoutNs := 30000000000 } _ rfl rfl⟩

/-- C6: a completed exchange is a Failure exactly when the status is ≥ 400;
the Failure reason is `HTTP <status>: <body>` (the body substring is empty
when the body read fails, the status still reported), and every status < 400
is a Success. -/
theorem status_classification (cfg : Config) (b : Batch) (status : Nat)
    (bodyRead : Option (List Nat)) (body : List Nat)
    (h : formatBatch cfg b = .ok body) :
    ((∃ e, (sendBatch cfg b (.response status bodyRead)).2 = .error e)
        ↔ 400 ≤ status) ∧
    (400 ≤ status → (sendBatch cfg b (.response status bodyRead)).2
        = .error ("HTTP " ++ toString status ++ ": "
            ++ bytesToString (bodyRead.getD []))) ∧
    (400 ≤ status → bodyRead = none →
      (sendBatch cfg b (.response status bodyRead)).2
        = .error ("HTTP " ++ toString status ++ ": ")) ∧
    (status < 400 →
      (sendBatch cfg b (.response status bodyRead)).2 = .ok ()) := by
  have hsend : (sendBatch cfg b (.response status bodyRead)).2
      = classifyResponse status bodyRead := by
    unfold sendBatch
    rw [h]
  rw [hsend]
  unfold classifyResponse
  by_cases h4 : 400 ≤ status
  · rw [if_pos h4]
    refine ⟨⟨fun _ => h4, fun _ => ⟨_, rfl⟩⟩, fun _ => rfl, fun _ hb => ?_,
      fun hlt => absurd h4 (by omega)⟩
    subst hb
    simp [bytesToString]
  · rw [if_neg h4]
    exact ⟨⟨fun ⟨e, he⟩ => Except.noConfusion he, fun h4' => absurd h4' h4⟩,
      fun h4' => absurd h4' h4, fun h4' _ => absurd h4' h4, fun _ => rfl⟩

/-- C6 witness: a 500 response with a read body, a 500 with a failed body
read, and a 200, all on a concrete delivery. -/
theorem status_classification_witness :
    (sendBatch cfgNd batchTwo (.response 500 (some [110, 111]))).2
      = .error ("HTTP " ++ toString 500 ++ ": " ++ bytesToString [110, 111]) ∧
    (sendBatch cfgNd batchTwo (.response 500 none)).2
      = .error ("HTTP " ++ toString 500 ++ ": ") ∧
    (sendBatch cfgNd batchTwo (.response 200 (some [111]))).2 = .ok () :=
  ⟨(status_classification cfgNd batchTwo 500 (some [110, 111]) _ rfl).2.1
      (by decide),
   (status_classification cfgNd batchTwo 500 none _ rfl).2.2.1 (by decide) rfl,
   (status_classification cfgNd batchTwo 200 (some [111]) _ rfl).2.2.2
      (by decide)⟩

/-- C7: with a parsed config and non-empty endpoint, `CreateSession` succeeds
and binds the created session's client to the resolved timeout: the 30s
default (30000000000 ns) when the timeout field is absent/empty or fails to
parse, the parsed duration otherwise. -/
theorem timeout_resolution (pd : String → Option Int) (st : ManagerState)
    (req : SessionCreateRequest) (cfg : Config)
    (hp : req.configParse = some cfg) (he : cfg.endpoint ≠ "") :
    (∃ r, (CreateSession pd st req).2 = .ok r) ∧
    ((CreateSession pd st req).1.sessions.head?.map (fun p => p.2.timeoutNs)
        = some (resolveTimeout pd cfg.timeout)) ∧
    (cfg.timeout = "" → resolveTimeout pd cfg.timeout = 30000000000) ∧
    (pd cfg.timeout = none → resolveTimeout pd cfg.timeout = 30000000000) ∧
    (∀ d, pd cfg.timeout = some d → cfg.timeout ≠ "" →
      resolveTimeout pd cfg.timeout = d) := by
  have hCS : CreateSession pd st req
      = ({ nextId := st.nextId + 1,
           sessions := ("sess-" ++ toString st.nextId,
             { tenantId := req.tenantId, cfg := cfg,
               timeoutNs := resolveTimeout pd cfg.timeout }) :: st.sessions },
         .ok { sessionId := "sess-" ++ toString st.nextId }) := by
    unfold CreateSession
    rw [hp]
    simp only [if_neg he]
    rfl
  refine ⟨⟨{ sessionId := "sess-" ++ toString st.nextId }, by rw [hCS]⟩,
    by rw [hCS]; rfl, ?_, ?_, ?_⟩
  · intro h0
    unfold resolveTimeout
    rw [if_pos h0]
  · intro hn
    unfold resolveTimeout
    split
    · rfl
    · rw [hn]
  · intro d hd hne
    unfold resolveTimeout
    rw [if_neg hne, hd]

/-- C7 witness: an unparseable timeout string falls back to 30s, and a
parseable one is used as parsed, on concrete sessions. -/
theorem timeout_resolution_witness :
    (∃ r, (CreateSession pdFix st0
        { tenantId := "t", configParse := some cfgBogusTimeout }).2 = .ok r) ∧
    ((CreateSession pdFix st0
        { tenantId := "t", configParse := some cfgBogusTimeout }).1.sessions.head?.map
          (fun p => p.2.timeoutNs) = some (resolveTimeout pdFix cfgBogusTimeout.timeout)) ∧
    resolveTimeout pdFix cfgBogusTimeout.timeout = 30000000000 ∧
    resolveTimeout pdFix cfgFiveSec.timeout = 5000000000 := by
  have h1 := timeout_resolution pdFix st0
    { tenantId := "t", configParse := some cfgBogusTimeout } cfgBogusTimeout
    rfl (by decide)
  have h2 := timeout_resolution pdFix st0
    { tenantId := "t", configParse := some cfgFiveSec } cfgFiveSec
    rfl (by decide)
  exact ⟨h1.1, h1.2.1, h1.2.2.2.1 rfl, h2.2.2.2.2 5000000000 rfl (by decide)⟩

/-- C8: every sent request carries the constructed header map; that map binds
`Content-Type` to `application/json` unless some configured key canonicalizes
to `Content-Type`, and each configured key whose canonical form is not
rewritten by a later entry maps to exactly its configured value (defaults
first, then overrides, last write per key wins). -/
theorem header_defaults_and_overrides (cfg : Config) (b : Batch)
    (net : HttpResult) :
    (∀ req, (sendBatch cfg b net).1 = some req → req.headers = applyHeaders cfg) ∧
    ((∀ kv ∈ cfg.headers, canonicalKey kv.1 ≠ "Content-Type") →
      (applyHeaders cfg).lookup "Content-Type" = some "application/json") ∧
    (∀ l1 k v l2, cfg.headers = l1 ++ (k, v) :: l2 →
      (∀ kv ∈ l2, canonicalKey kv.1 ≠ canonicalKey k) →
      (applyHeaders cfg).lookup (canonicalKey k) = some v) := by
  refine ⟨?_, ?_, ?_⟩
  · intro req hr
    exact (sendBatch_request_shape cfg b net req hr).2.2
  · intro hall
    unfold applyHeaders
    rw [lookup_foldl_headerSet _ _ _ hall]
    decide
  · intro l1 k v l2 hsplit hl2
    unfold applyHeaders
    rw [hsplit, List.foldl_append, List.foldl_cons]
    rw [lookup_foldl_headerSet _ _ _ hl2]
    exact lookup_headerSet_self _ k v

/-- C8 witness: the concrete ndjson config's single header and the default
`Content-Type`, evaluated on a sent request. -/
theorem header_defaults_and_overrides_witness :
    reqNd.headers = applyHeaders cfgNd ∧
    (applyHeaders cfgNd).lookup "Content-Type" = some "application/json" ∧
    (applyHeaders cfgNd).lookup (canonicalKey "X-Tenant") = some "t1" :=
  ⟨(header_defaults_and_overrides cfgNd batchTwo (.response 200 none)).1
      reqNd (by decide),
   (header_defaults_and_overrides cfgNd batchTwo (.response 200 none)).2.1
      (by decide),
   (header_defaults_and_overrides cfgNd batchTwo (.response 200 none)).2.2
      [] "X-Tenant" "t1" [] rfl (by simp)⟩

/-- C9 counterexample: the claim restricts the outbound method to POST, PUT
or PATCH, but a config whose method field is `"DELETE"` makes the code send a
DELETE request (the method is never validated). -/
theorem method_unrestricted_counterexample :
    ((sendBatch cfgDelete batchNone (.response 200 none)).1.map
        (fun r => r.method)) = some "DELETE" ∧
    ("DELETE" : String) ≠ "POST" ∧ ("DELETE" : String) ≠ "PUT" ∧
    ("DELETE" : String) ≠ "PATCH" :=
  ⟨by decide, by decide, by decide, by decide⟩

/-- C9 amended: the outbound method is POST when the config's method field is
empty, and otherwise is exactly the configured string, which the code never
restricts to POST/PUT/PATCH. -/
theorem method_resolution (cfg : Config) (b : Batch) (net : HttpResult)
    (req : OutRequest) (h : (sendBatch cfg b net).1 = some req) :
    req.method = (if cfg.method = "" then "POST" else cfg.method) ∧
    (cfg.method = "" → req.method = "POST") := by
  have hm : req.method = resolveMethod cfg.method :=
    (sendBatch_request_shape cfg b net req h).1
  unfold resolveMethod at hm
  exact ⟨hm, fun h0 => by rw [hm, if_pos h0]⟩

/-- C9 witness: the empty method resolves to POST on a sent request. -/
theorem method_resolution_witness :
    reqJa.method = (if cfgJa.method = "" then "POST" else cfgJa.method) ∧
    (cfgJa.method = "" → reqJa.method = "POST") :=
  method_resolution cfgJa batchTwo (.response 200 none) reqJa (by decide)

/-- C10: a zero-record batch is still sent: ndjson yields the empty body,
any other format yields exactly the two bytes `[]` (91, 93), and the outcome
is classified from the response status as for any batch. -/
theorem empty_batch_request (cfg : Config) (b : Batch) (status : Nat)
    (bodyRead : Option (List Nat)) (hb : b.records = []) :
    (cfg.batchFormat = "ndjson" →
      sendBatch cfg b (.response status bodyRead)
        = (some { method := resolveMethod cfg.method, url := cfg.endpoint,
                  headers := applyHeaders cfg, body := [] },
           classifyResponse status bodyRead)) ∧
    (cfg.batchFormat ≠ "ndjson" →
      sendBatch cfg b (.response status bodyRead)
        = (some { method := resolveMethod cfg.method, url := cfg.endpoint,
                  headers := applyHeaders cfg, body := [91, 93] },
           classifyResponse status bodyRead)) := by
  constructor
  · intro h
    have hf : formatBatch cfg b = .ok [] := by
      unfold formatBatch
      rw [if_pos h, hb]
      rfl
    unfold sendBatch
    rw [hf]
  · intro h
    have hf : formatBatch cfg b = .ok [91, 93] := by
      unfold formatBatch
      rw [if_neg h, hb]
      rfl
    unfold sendBatch
    rw [hf]

/-- C10 witness: the empty batch under the ndjson config and under the
default config, answered with 204. -/
theorem empty_batch_request_witness :
    sendBatch cfgNd batchNone (.response 204 none)
      = (some { method := resolveMethod cfgNd.method, url := cfgNd.endpoint,
                headers := applyHeaders cfgNd, body := [] },
         classifyResponse 204 none) ∧
    sendBatch cfgJa batchNone (.response 204 none)
      = (some { method := resolveMethod cfgJa.method, url := cfgJa.endpoint,
                headers := applyHeaders cfgJa, body := [91, 93] },
         classifyResponse 204 none) :=
  ⟨(empty_batch_request cfgNd batchNone 204 none rfl).1 rfl,
   (empty_batch_request cfgJa batchNone 204 none rfl).2 (by decide)⟩

end PlanxHttp
